import Mathlib

/-!
Verification of the conversation-agent logic of the ai-bot repository.

The repository has two Python modules:
- `gemini_agent.py`: class `GeminiAgent` holding an ordered `chat_history`
  (a list of `{role, content}` dicts), with methods `send_message`,
  `_build_message_history`, `_update_chat_history`, `clear_history`,
  `get_chat_history`.
- `app.py`: Streamlit glue, of which `initialize_agent` is the part with
  behavioural content (short-circuit on a missing API key).

We embed the history/message-list logic shallowly: the remote LLM call is a
parameter (a function from the message list to an `Except`-valued result),
Python dicts of token counts become association lists, and Python truthiness
of optional strings is made explicit.
-/

namespace AiBot

/-- One entry of `chat_history`: a Python dict `{'role': ..., 'content': ...}`. -/
structure Turn where
  role : String
  content : String
deriving Repr, DecidableEq

/-- A LangChain message object as placed in the payload list by
`_build_message_history`: `SystemMessage`, `HumanMessage` or `AIMessage`. -/
inductive Msg where
  | SystemMessage (content : String)
  | HumanMessage (content : String)
  | AIMessage (content : String)
deriving Repr, DecidableEq

/-- Token-usage metadata: a Python dict from keys to counts. -/
abbrev Usage := List (String × Nat)

/-- The response object returned by `self.llm.invoke`: generated text plus an
optional `usage_metadata` dict. -/
structure RemoteResponse where
  content : String
  usage_metadata : Option Usage
deriving Repr, DecidableEq

/-- Result of the remote completion call: either a response or a raised
exception carrying its message string. -/
abbrev RemoteResult := Except String RemoteResponse

/-- Python truthiness of an `Optional[str]`: `None` and `""` are falsy. -/
def optStrTruthy : Option String → Bool
  | none => false
  | some s => s != ""

/-- The state of a `GeminiAgent` instance: the configured model name, the
`max_retries` passed to the client, and the mutable `chat_history`. -/
structure GeminiAgent where
  model_name : String
  max_retries : Nat
  chat_history : List Turn
deriving Repr, DecidableEq

/-- The body of the history-replay loop of `_build_message_history`: a stored
turn becomes a `HumanMessage` when its role is `'user'`, an `AIMessage` when
`'assistant'`, and is skipped otherwise (the `if`/`elif` has no `else`). -/
def turnToMsg? (t : Turn) : Option Msg :=
  if t.role = "user" then some (Msg.HumanMessage t.content)
  else if t.role = "assistant" then some (Msg.AIMessage t.content)
  else none

/-- `GeminiAgent._build_message_history(current_message, system_prompt)`:
optionally a `SystemMessage` (only when `system_prompt` is truthy and
`chat_history` is empty), then the replayed history, then the current user
message. -/
def GeminiAgent.build_message_history (a : GeminiAgent) (current_message : String)
    (system_prompt : Option String) : List Msg :=
  (if optStrTruthy system_prompt && a.chat_history.isEmpty then
    match system_prompt with
    | some s => [Msg.SystemMessage s]
    | none => []
  else [])
  ++ a.chat_history.filterMap turnToMsg?
  ++ [Msg.HumanMessage current_message]

/-- `GeminiAgent._update_chat_history(user_message, assistant_response)`:
extend `chat_history` with the user turn then the assistant turn. -/
def GeminiAgent.update_chat_history (a : GeminiAgent) (user_message : String)
    (assistant_response : String) : GeminiAgent :=
  { a with chat_history := a.chat_history ++
      [⟨"user", user_message⟩, ⟨"assistant", assistant_response⟩] }

/-- `GeminiAgent.send_message(message, system_prompt)`. The remote call
`self.llm.invoke` is the parameter `remote`; on success the history is
updated and `(response.content, usage_metadata or {})` is returned, on an
exception `e` the pair `(f"Error: {e}", {})` is returned and the agent is
untouched. -/
def GeminiAgent.send_message (a : GeminiAgent) (message : String)
    (system_prompt : Option String) (remote : List Msg → RemoteResult) :
    (String × Usage) × GeminiAgent :=
  match remote (a.build_message_history message system_prompt) with
  | Except.ok resp =>
      ((resp.content, resp.usage_metadata.getD []),
        a.update_chat_history message resp.content)
  | Except.error e => (("Error: " ++ e, []), a)

/-- `GeminiAgent.clear_history()`: `self.chat_history.clear()`. -/
def GeminiAgent.clear_history (a : GeminiAgent) : GeminiAgent :=
  { a with chat_history := [] }

/-- `GeminiAgent.get_chat_history()`: returns (a copy of) the history; in the
pure model the value returned is the current history. -/
def GeminiAgent.get_chat_history (a : GeminiAgent) : List Turn :=
  a.chat_history

/-- The default model name used when `model_name` is falsy. -/
def defaultModelName : String := "gemini-2.0-flash"

/-- `GeminiAgent.__init__(model_name, ...)`: reads the API key from the
environment (`api_key : Option String` models `os.getenv`), raises
`ValueError` when it is missing or empty, and sets
`self.model_name = model_name or 'gemini-2.0-flash'` with an empty history. -/
def GeminiAgent.init (api_key : Option String) (model_name : Option String) :
    Except String GeminiAgent :=
  if optStrTruthy api_key then
    Except.ok
      { model_name :=
          match model_name with
          | none => defaultModelName
          | some s => if s = "" then defaultModelName else s
        max_retries := 2
        chat_history := [] }
  else
    Except.error "GOOGLE_API_KEY not found in environment variables"

/-! ### The app layer (`app.py`) -/

/-- Observable actions of the app layer, used to state that certain effects
(constructing an agent, calling the remote service) never happen on a path. -/
inductive AppEvent where
  | setEnvKey (key : String)
  | constructAgent (model : String)
  | successBanner
  | errorBanner (msg : String)
  | welcomeMessage
  | remoteCall
deriving Repr, DecidableEq

/-- `app.initialize_agent(api_key, model_name)`: returns `False` at once when
`api_key` is falsy; otherwise stores the key in the environment and, if no
agent exists yet, constructs one (showing a success or error banner). The
returned triple is (return value, session agent, emitted events). -/
def initialize_agent (api_key : String) (model_name : String)
    (agent : Option GeminiAgent) : Bool × Option GeminiAgent × List AppEvent :=
  if api_key = "" then (false, agent, [])
  else
    match agent with
    | some a => (true, some a, [AppEvent.setEnvKey api_key])
    | none =>
      match GeminiAgent.init (some api_key) (some model_name) with
      | Except.ok a =>
          (true, some a,
            [AppEvent.setEnvKey api_key, AppEvent.constructAgent model_name,
             AppEvent.successBanner])
      | Except.error e =>
          (false, none,
            [AppEvent.setEnvKey api_key, AppEvent.errorBanner ("Error: " ++ e)])

/-- The agent-setup fragment of `app.main`: initialize the agent and, when it
is not ready, show the welcome message and return before any chat handling
(so no completion call can follow on this path). -/
def main_flow (api_key : String) (model_name : String)
    (agent : Option GeminiAgent) : Bool × Option GeminiAgent × List AppEvent :=
  match initialize_agent api_key model_name agent with
  | (true, a, evs) => (true, a, evs)
  | (false, a, evs) => (false, a, evs ++ [AppEvent.welcomeMessage])

/-! ### Operation sequences on an agent -/

/-- A user-level operation on an agent: one `send_message` call (with its
message, optional system prompt, and the behaviour of the remote service on
that call) or one `clear_history` call. -/
inductive AgentOp where
  | send (message : String) (system_prompt : Option String)
      (remote : List Msg → RemoteResult)
  | clear

/-- Apply one operation to an agent, keeping only the resulting state. -/
def stepOp (a : GeminiAgent) : AgentOp → GeminiAgent
  | AgentOp.send m sp r => (a.send_message m sp r).2
  | AgentOp.clear => a.clear_history

/-- Run a sequence of operations from a given agent state. -/
def runOps (a : GeminiAgent) (ops : List AgentOp) : GeminiAgent :=
  ops.foldl stepOp a

/-- One successful exchange: the message sent, the optional system prompt, and
the response the remote service produced. -/
abbrev Exchange := String × Option String × RemoteResponse

/-- Run a sequence of exchanges in which every remote call succeeds. -/
def runExchanges (a : GeminiAgent) (xs : List Exchange) : GeminiAgent :=
  xs.foldl (fun acc x =>
    (acc.send_message x.1 x.2.1 (fun _ => Except.ok x.2.2)).2) a

/-- Every turn of the list has role `'user'` or `'assistant'`. -/
def rolesOk (h : List Turn) : Prop :=
  ∀ t ∈ h, t.role = "user" ∨ t.role = "assistant"

/-- Roles strictly alternate starting from `'user'`: even positions are user
turns, odd positions assistant turns. -/
def alternatesFromUser (h : List Turn) : Prop :=
  ∀ i, (hlt : i < h.length) →
    (h.get ⟨i, hlt⟩).role = if i % 2 = 0 then "user" else "assistant"

/-- Total version of the replay step, agreeing with `turnToMsg?` on
well-formed roles. -/
def turnMsg (t : Turn) : Msg :=
  if t.role = "user" then Msg.HumanMessage t.content else Msg.AIMessage t.content

/-- A freshly constructed agent with the default configuration. -/
def freshAgent : GeminiAgent :=
  { model_name := defaultModelName, max_retries := 2, chat_history := [] }

/-! ### Helper lemmas -/

/-- The history-replay loop never produces a `SystemMessage`. -/
lemma system_not_in_replay (h : List Turn) (s : String) :
    Msg.SystemMessage s ∉ h.filterMap turnToMsg? := by
  intro hmem
  rw [List.mem_filterMap] at hmem
  obtain ⟨t, _, ht⟩ := hmem
  unfold turnToMsg? at ht
  split at ht
  · simp at ht
  · split at ht
    · simp at ht
    · simp at ht

/-- On well-formed roles, the replay loop keeps every turn. -/
lemma replay_eq_map_of_rolesOk (h : List Turn) (hr : rolesOk h) :
    h.filterMap turnToMsg? = h.map turnMsg := by
  induction h with
  | nil => rfl
  | cons t ts ih =>
    have ht := hr t (List.mem_cons_self t ts)
    have hts : rolesOk ts := fun u hu => hr u (List.mem_cons_of_mem t hu)
    rcases ht with h1 | h1 <;>
      simp [List.filterMap_cons, turnToMsg?, turnMsg, h1, ih hts]

/-- Appending a user/assistant pair preserves well-formedness of roles. -/
lemma rolesOk_append_pair (h : List Turn) (hr : rolesOk h) (u v : String) :
    rolesOk (h ++ [⟨"user", u⟩, ⟨"assistant", v⟩]) := by
  intro t ht
  rcases List.mem_append.1 ht with h1 | h2
  · exact hr t h1
  · simp only [List.mem_cons, List.mem_singleton] at h2
    rcases h2 with rfl | rfl | h2
    · left; rfl
    · right; rfl
    · cases h2

/-- One operation preserves well-formedness of the history roles. -/
lemma rolesOk_step (a : GeminiAgent) (op : AgentOp) (hr : rolesOk a.chat_history) :
    rolesOk (stepOp a op).chat_history := by
  cases op with
  | clear => intro t ht; simp [stepOp, GeminiAgent.clear_history] at ht
  | send m sp r =>
    simp only [stepOp, GeminiAgent.send_message]
    cases r (a.build_message_history m sp) with
    | ok resp =>
      simpa [GeminiAgent.update_chat_history] using
        rolesOk_append_pair a.chat_history hr m resp.content
    | error e => exact hr

/-! ### Claims -/

/-- C2: a system instruction appears in the constructed message list iff the
history was empty at call time and a non-empty system prompt was supplied;
an absent or empty prompt never yields one. -/
theorem system_message_iff (a : GeminiAgent) (m : String) (sp : Option String) :
    (∃ s, Msg.SystemMessage s ∈ a.build_message_history m sp) ↔
      (a.chat_history = [] ∧ ∃ p, sp = some p ∧ p ≠ "") := by
  unfold GeminiAgent.build_message_history
  constructor
  · rintro ⟨s, hs⟩
    rcases List.mem_append.1 hs with hs1 | hs2
    · rcases List.mem_append.1 hs1 with hs0 | hsf
      · by_cases hc : (optStrTruthy sp && a.chat_history.isEmpty) = true
        · rw [if_pos hc] at hs0
          rw [Bool.and_eq_true] at hc
          obtain ⟨ht, he⟩ := hc
          cases sp with
          | none => simp [optStrTruthy] at ht
          | some p =>
            refine ⟨List.isEmpty_iff.1 he, p, rfl, ?_⟩
            simpa [optStrTruthy] using ht
        · rw [if_neg hc] at hs0
          exact absurd hs0 (List.not_mem_nil _)
      · exact absurd hsf (system_not_in_replay _ _)
    · simp at hs2
  · rintro ⟨hh, p, rfl, hp⟩
    refine ⟨p, ?_⟩
    have hc : (optStrTruthy (some p) && a.chat_history.isEmpty) = true := by
      simp [optStrTruthy, hh, hp]
    rw [if_pos hc]
    simp

/-- C3: when the remote call raises, `send_message` returns the formatted
error string (which is non-empty) with an empty usage map, and the agent —
in particular its chat history — is exactly what it was before. -/
theorem send_message_failure (a : GeminiAgent) (m : String) (sp : Option String)
    (remote : List Msg → RemoteResult) (e : String)
    (hfail : remote (a.build_message_history m sp) = Except.error e) :
    a.send_message m sp remote = (("Error: " ++ e, []), a) ∧
      ("Error: " ++ e) ≠ "" := by
  constructor
  · unfold GeminiAgent.send_message
    rw [hfail]
  · intro hcontra
    have hlen : ("Error: " ++ e).length = 0 := by rw [hcontra]; rfl
    rw [String.length_append] at hlen
    have h7 : ("Error: " : String).length = 7 := rfl
    rw [h7] at hlen
    omega

/-- Witness for C3 at a concrete failing call. -/
theorem send_message_failure_witness :
    freshAgent.send_message "Hi" none (fun _ => Except.error "boom") =
      (("Error: " ++ "boom", []), freshAgent) ∧ ("Error: " ++ "boom") ≠ "" :=
  send_message_failure freshAgent "Hi" none (fun _ => Except.error "boom") "boom" rfl

/-- C6: `clear_history` empties the history unconditionally, and a subsequent
`get_chat_history` yields the empty history. -/
theorem clear_history_empties (a : GeminiAgent) :
    (a.clear_history).chat_history = [] ∧
      (a.clear_history).get_chat_history = [] :=
  ⟨rfl, rfl⟩

/-- C10: constructing an agent with `model_name` absent uses the default
`'gemini-2.0-flash'`; any supplied non-empty model-name string is used
verbatim. -/
theorem init_model_name (k : Option String) (hk : optStrTruthy k = true)
    (s : String) (hs : s ≠ "") :
    GeminiAgent.init k none = Except.ok ⟨"gemini-2.0-flash", 2, []⟩ ∧
      GeminiAgent.init k (some s) = Except.ok ⟨s, 2, []⟩ := by
  constructor
  · unfold GeminiAgent.init
    rw [if_pos hk]
    rfl
  · unfold GeminiAgent.init
    rw [if_pos hk]
    simp [hs]

/-- Witness for C10 at a concrete key and model name. -/
theorem init_model_name_witness :
    GeminiAgent.init (some "key") none = Except.ok ⟨"gemini-2.0-flash", 2, []⟩ ∧
      GeminiAgent.init (some "key") (some "gemini-1.5-flash") =
        Except.ok ⟨"gemini-1.5-flash", 2, []⟩ :=
  init_model_name (some "key") rfl "gemini-1.5-flash" (by decide)

/-- C7: with an empty API key, `initialize_agent` returns `False` at once —
no agent is constructed, no event is emitted — and the app flow shows only
the guidance (welcome) message; no completion call happens on this path. -/
theorem initialize_agent_empty_key (m : String) (agent : Option GeminiAgent) :
    initialize_agent "" m agent = (false, agent, []) ∧
      main_flow "" m agent = (false, agent, [AppEvent.welcomeMessage]) ∧
      AppEvent.constructAgent m ∉ (main_flow "" m agent).2.2 ∧
      AppEvent.remoteCall ∉ (main_flow "" m agent).2.2 := by
  refine ⟨rfl, rfl, ?_, ?_⟩ <;> simp [main_flow, initialize_agent]

/-- The invariant length lemma behind C4: each successful exchange adds
exactly two turns. -/
lemma runExchanges_length (xs : List Exchange) : ∀ a : GeminiAgent,
    (runExchanges a xs).chat_history.length = a.chat_history.length + 2 * xs.length := by
  induction xs with
  | nil => intro a; simp [runExchanges]
  | cons x xs ih =>
    intro a
    simp only [runExchanges, List.foldl_cons] at ih ⊢
    rw [ih]
    simp only [GeminiAgent.send_message, GeminiAgent.update_chat_history,
      List.length_append]
    simp [List.length_cons]
    ring

/-- C1: the payload built for the remote call is the optional system
instruction (present exactly when history is empty and a prompt is supplied),
then every stored turn replayed in order, then the new user message last;
in particular the two concrete example calls of the spec. -/
theorem build_message_order (a : GeminiAgent) (m : String) (sp : Option String)
    (hr : rolesOk a.chat_history) (reply : String) :
    a.build_message_history m sp =
      (if optStrTruthy sp && a.chat_history.isEmpty then
        match sp with
        | some s => [Msg.SystemMessage s]
        | none => []
      else [])
      ++ a.chat_history.map turnMsg ++ [Msg.HumanMessage m] ∧
    freshAgent.build_message_history "Hi" (some "Be terse") =
      [Msg.SystemMessage "Be terse", Msg.HumanMessage "Hi"] ∧
    ((freshAgent.send_message "Hi" (some "Be terse")
        (fun _ => Except.ok ⟨reply, none⟩)).2).build_message_history "More?" none =
      [Msg.HumanMessage "Hi", Msg.AIMessage reply, Msg.HumanMessage "More?"] := by
  refine ⟨?_, rfl, ?_⟩
  · unfold GeminiAgent.build_message_history
    rw [replay_eq_map_of_rolesOk a.chat_history hr]
  · simp [GeminiAgent.send_message, GeminiAgent.update_chat_history, freshAgent,
      GeminiAgent.build_message_history, optStrTruthy, turnToMsg?]

/-- Witness for C1 on a one-round history. -/
theorem build_message_order_witness :
    (freshAgent.update_chat_history "Hi" "Hello").build_message_history "More?" none =
      (if optStrTruthy none &&
          (freshAgent.update_chat_history "Hi" "Hello").chat_history.isEmpty then
        match (none : Option String) with
        | some s => [Msg.SystemMessage s]
        | none => []
      else [])
      ++ (freshAgent.update_chat_history "Hi" "Hello").chat_history.map turnMsg
      ++ [Msg.HumanMessage "More?"] :=
  (build_message_order (freshAgent.update_chat_history "Hi" "Hello") "More?" none
    (by intro t ht; simp [freshAgent, GeminiAgent.update_chat_history] at ht
        rcases ht with rfl | rfl
        · left; rfl
        · right; rfl) "Hello").1

/-- C4: a successful `send_message` appends exactly `{user, message}` then
`{assistant, response}` to the history and returns the response text with
the token counts; consequently N successful exchanges from an empty history
leave the history with length 2N. -/
theorem send_message_success (a : GeminiAgent) (m : String) (sp : Option String)
    (remote : List Msg → RemoteResult) (resp : RemoteResponse)
    (hok : remote (a.build_message_history m sp) = Except.ok resp)
    (xs : List Exchange) (b : GeminiAgent) (hb : b.chat_history = []) :
    a.send_message m sp remote =
      ((resp.content, resp.usage_metadata.getD []),
        { a with chat_history := a.chat_history ++
            [⟨"user", m⟩, ⟨"assistant", resp.content⟩] }) ∧
    (runExchanges b xs).chat_history.length = 2 * xs.length := by
  constructor
  · unfold GeminiAgent.send_message
    rw [hok]
    rfl
  · rw [runExchanges_length, hb]
    simp

/-- Witness for C4 at a concrete successful call and a two-exchange run. -/
theorem send_message_success_witness :
    freshAgent.send_message "Hi" none (fun _ => Except.ok ⟨"Hello", some [("total_tokens", 5)]⟩) =
      (("Hello", [("total_tokens", 5)]),
        { freshAgent with chat_history := freshAgent.chat_history ++
            [⟨"user", "Hi"⟩, ⟨"assistant", "Hello"⟩] }) ∧
    (runExchanges freshAgent
      [("Hi", none, ⟨"Hello", none⟩), ("More?", none, ⟨"Sure", none⟩)]).chat_history.length =
      2 * 2 :=
  send_message_success freshAgent "Hi" none
    (fun _ => Except.ok ⟨"Hello", some [("total_tokens", 5)]⟩)
    ⟨"Hello", some [("total_tokens", 5)]⟩ rfl
    [("Hi", none, ⟨"Hello", none⟩), ("More?", none, ⟨"Sure", none⟩)] freshAgent rfl

/-- C5: starting from an empty history, no sequence of operations ever stores
a system instruction in the history: every stored turn has role `'user'` or
`'assistant'` (the system prompt only appears transiently in the per-call
message list, per the C2 theorem). -/
theorem history_roles_invariant (ops : List AgentOp) (a : GeminiAgent)
    (ha : a.chat_history = []) :
    rolesOk (runOps a ops).chat_history ∧
      ∀ t ∈ (runOps a ops).chat_history, t.role ≠ "system" := by
  have main : ∀ (l : List AgentOp) (b : GeminiAgent), rolesOk b.chat_history →
      rolesOk (runOps b l).chat_history := by
    intro l
    induction l with
    | nil => intro b hb; exact hb
    | cons op rest ih =>
      intro b hb
      simp only [runOps, List.foldl_cons] at ih ⊢
      exact ih (stepOp b op) (rolesOk_step b op hb)
  have hro : rolesOk (runOps a ops).chat_history :=
    main ops a (by rw [ha]; intro t ht; cases ht)
  refine ⟨hro, ?_⟩
  intro t ht hcontra
  rcases hro t ht with h1 | h1 <;> rw [hcontra] at h1 <;> exact absurd h1 (by decide)

/-- Witness for C5 on a concrete run mixing success, failure and clearing. -/
theorem history_roles_invariant_witness :
    rolesOk (runOps freshAgent
      [AgentOp.send "Hi" (some "Be terse") (fun _ => Except.ok ⟨"Hello", none⟩),
       AgentOp.send "More?" none (fun _ => Except.error "boom"),
       AgentOp.clear,
       AgentOp.send "Again" none (fun _ => Except.ok ⟨"Yes", none⟩)]).chat_history ∧
    ∀ t ∈ (runOps freshAgent
      [AgentOp.send "Hi" (some "Be terse") (fun _ => Except.ok ⟨"Hello", none⟩),
       AgentOp.send "More?" none (fun _ => Except.error "boom"),
       AgentOp.clear,
       AgentOp.send "Again" none (fun _ => Except.ok ⟨"Yes", none⟩)]).chat_history,
      t.role ≠ "system" :=
  history_roles_invariant
    [AgentOp.send "Hi" (some "Be terse") (fun _ => Except.ok ⟨"Hello", none⟩),
     AgentOp.send "More?" none (fun _ => Except.error "boom"),
     AgentOp.clear,
     AgentOp.send "Again" none (fun _ => Except.ok ⟨"Yes", none⟩)] freshAgent rfl

/-- Appending a user/assistant pair at an even position keeps the history
alternating from `'user'`. -/
lemma alternates_append_pair (h : List Turn) (hA : alternatesFromUser h)
    (he : h.length % 2 = 0) (u v : String) :
    alternatesFromUser (h ++ [⟨"user", u⟩, ⟨"assistant", v⟩]) := by
  intro i hlt
  rw [List.get_eq_getElem]
  by_cases hi : i < h.length
  · rw [List.getElem_append_left hi]
    have := hA i hi
    rwa [List.get_eq_getElem] at this
  · have hge : h.length ≤ i := Nat.le_of_not_lt hi
    rw [List.getElem_append_right hge]
    have hlt2 : i < h.length + 2 := by simpa using hlt
    rcases Nat.lt_or_ge i (h.length + 1) with hcase | hcase
    · have hieq : i = h.length := Nat.le_antisymm (Nat.lt_succ_iff.1 hcase) hge
      subst hieq
      have hcond : h.length % 2 = 0 := he
      simp [hcond]
    · have hieq : i = h.length + 1 := Nat.le_antisymm (by omega) hcase
      subst hieq
      have hidx : h.length + 1 - h.length = 1 := by omega
      have hcond : ¬((h.length + 1) % 2 = 0) := by omega
      simp [hidx, hcond]

/-- One operation preserves the alternation invariant (alternating roles and
even length). -/
lemma alternates_step (a : GeminiAgent) (op : AgentOp)
    (hA : alternatesFromUser a.chat_history)
    (he : a.chat_history.length % 2 = 0) :
    alternatesFromUser (stepOp a op).chat_history ∧
      (stepOp a op).chat_history.length % 2 = 0 := by
  cases op with
  | clear =>
    constructor
    · intro i hlt
      simp [stepOp, GeminiAgent.clear_history] at hlt
    · simp [stepOp, GeminiAgent.clear_history]
  | send m sp r =>
    simp only [stepOp, GeminiAgent.send_message]
    cases r (a.build_message_history m sp) with
    | ok resp =>
      constructor
      · simpa [GeminiAgent.update_chat_history] using
          alternates_append_pair a.chat_history hA he m resp.content
      · simp only [GeminiAgent.update_chat_history, List.length_append]
        simp
        omega
    | error e => exact ⟨hA, he⟩

/-- C8: from a freshly constructed agent, after any sequence of `send_message`
and `clear_history` operations the history strictly alternates roles starting
with `'user'`: even indices are user turns, odd indices assistant turns. -/
theorem history_alternation (ops : List AgentOp) (a : GeminiAgent)
    (ha : a.chat_history = []) :
    alternatesFromUser (runOps a ops).chat_history := by
  have main : ∀ (l : List AgentOp) (b : GeminiAgent),
      alternatesFromUser b.chat_history → b.chat_history.length % 2 = 0 →
      alternatesFromUser (runOps b l).chat_history ∧
        (runOps b l).chat_history.length % 2 = 0 := by
    intro l
    induction l with
    | nil => intro b h1 h2; exact ⟨h1, h2⟩
    | cons op rest ih =>
      intro b h1 h2
      simp only [runOps, List.foldl_cons] at ih ⊢
      obtain ⟨h1s, h2s⟩ := alternates_step b op h1 h2
      exact ih (stepOp b op) h1s h2s
  refine (main ops a ?_ ?_).1
  · rw [ha]
    intro i hlt
    simp at hlt
  · rw [ha]
    rfl

/-- Witness for C8 on a concrete run mixing success, failure and clearing. -/
theorem history_alternation_witness :
    alternatesFromUser (runOps freshAgent
      [AgentOp.send "Hi" (some "Be terse") (fun _ => Except.ok ⟨"Hello", none⟩),
       AgentOp.send "More?" none (fun _ => Except.ok ⟨"Sure", none⟩),
       AgentOp.send "Again?" none (fun _ => Except.error "boom"),
       AgentOp.clear,
       AgentOp.send "New" none (fun _ => Except.ok ⟨"Yes", none⟩)]).chat_history :=
  history_alternation
    [AgentOp.send "Hi" (some "Be terse") (fun _ => Except.ok ⟨"Hello", none⟩),
     AgentOp.send "More?" none (fun _ => Except.ok ⟨"Sure", none⟩),
     AgentOp.send "Again?" none (fun _ => Except.error "boom"),
     AgentOp.clear,
     AgentOp.send "New" none (fun _ => Except.ok ⟨"Yes", none⟩)] freshAgent rfl

/-! ### A small heap model for `get_chat_history`'s copy semantics (C9)

Python lists are mutable heap objects; `self.chat_history.copy()` allocates a
fresh list with the same elements. We model a heap of list cells addressed by
`Nat` references to state that mutating the returned list cannot change the
agent's own history cell. -/

/-- A heap of Python list objects: cell `r` holds the list stored at
reference `r`. -/
structure Heap where
  cells : List (List Turn)
deriving Repr, DecidableEq

/-- Dereference a list object (out-of-range reads are irrelevant: the theorem
assumes a valid reference). -/
def Heap.read (h : Heap) (r : Nat) : List Turn := (h.cells[r]?).getD []

/-- In-place mutation of the list object at `r` (e.g. `append`, `clear`). -/
def Heap.write (h : Heap) (r : Nat) (v : List Turn) : Heap := ⟨h.cells.set r v⟩

/-- Allocate a fresh list object, returning the new heap and its reference. -/
def Heap.alloc (h : Heap) (v : List Turn) : Heap × Nat :=
  (⟨h.cells ++ [v]⟩, h.cells.length)

/-- `GeminiAgent.get_chat_history()` in the heap model: `return
self.chat_history.copy()` allocates a fresh cell holding the same elements
as the agent's history cell `agentRef`. -/
def get_chat_history_copy (h : Heap) (agentRef : Nat) : Heap × Nat :=
  h.alloc (h.read agentRef)

/-- C9: `get_chat_history` returns a copy — the returned list equals the
current history, the agent's history cell is untouched by the call, the
returned reference is distinct from the agent's, and any mutation through
the returned reference leaves the agent's history unchanged. -/
theorem get_chat_history_is_copy (h : Heap) (agentRef : Nat)
    (href : agentRef < h.cells.length) :
    (get_chat_history_copy h agentRef).1.read (get_chat_history_copy h agentRef).2 =
        h.read agentRef ∧
      (get_chat_history_copy h agentRef).1.read agentRef = h.read agentRef ∧
      (get_chat_history_copy h agentRef).2 ≠ agentRef ∧
      ∀ v : List Turn,
        ((get_chat_history_copy h agentRef).1.write
            (get_chat_history_copy h agentRef).2 v).read agentRef =
          h.read agentRef := by
  refine ⟨?_, ?_, ?_, ?_⟩
  · simp [get_chat_history_copy, Heap.alloc, Heap.read]
  · simp only [get_chat_history_copy, Heap.alloc, Heap.read]
    rw [List.getElem?_append_left href]
  · simp only [get_chat_history_copy, Heap.alloc]
    omega
  · intro v
    simp only [get_chat_history_copy, Heap.alloc, Heap.write, Heap.read]
    rw [List.getElem?_set_ne (by omega), List.getElem?_append_left href]

/-- Witness for C9 on a concrete heap with one agent history cell. -/
theorem get_chat_history_is_copy_witness :
    (get_chat_history_copy ⟨[[⟨"user", "Hi"⟩, ⟨"assistant", "Hello"⟩]]⟩ 0).1.read
        (get_chat_history_copy ⟨[[⟨"user", "Hi"⟩, ⟨"assistant", "Hello"⟩]]⟩ 0).2 =
      Heap.read ⟨[[⟨"user", "Hi"⟩, ⟨"assistant", "Hello"⟩]]⟩ 0 ∧
    (get_chat_history_copy ⟨[[⟨"user", "Hi"⟩, ⟨"assistant", "Hello"⟩]]⟩ 0).1.read 0 =
      Heap.read ⟨[[⟨"user", "Hi"⟩, ⟨"assistant", "Hello"⟩]]⟩ 0 ∧
    (get_chat_history_copy ⟨[[⟨"user", "Hi"⟩, ⟨"assistant", "Hello"⟩]]⟩ 0).2 ≠ 0 ∧
    ∀ v : List Turn,
      ((get_chat_history_copy ⟨[[⟨"user", "Hi"⟩, ⟨"assistant", "Hello"⟩]]⟩ 0).1.write
          (get_chat_history_copy ⟨[[⟨"user", "Hi"⟩, ⟨"assistant", "Hello"⟩]]⟩ 0).2 v).read 0 =
        Heap.read ⟨[[⟨"user", "Hi"⟩, ⟨"assistant", "Hello"⟩]]⟩ 0 :=
  get_chat_history_is_copy ⟨[[⟨"user", "Hi"⟩, ⟨"assistant", "Hello"⟩]]⟩ 0 (by decide)

end AiBot
